import Mathlib

/-!
# CPU/GPU matrix comparison utilities: embedding and verified properties

Shallow embedding of the three programs of the repository:

* `main.cpp`    : the CPU transpose tool (`idx`, `transpose`, `main`);
* `compare.cpp` : the binary file comparator (`get_file_size`, `main`);
* `verify.cpp`  : the verification tool (`rotate180`, `reflect_right_left`,
  `rotate90Clockwise`, `compare_arrays`, `main`).

Conventions of the embedding.

* `size_t` values are natural numbers and every `size_t` operation is reduced
  modulo `2 ^ 64`.
* A buffer (`T*` together with the extent of its allocation) is a `List`.
  A read or a write outside the allocation is undefined behaviour in C++ and
  is `none` here; every function touching memory returns an `Option`.
* A counted loop `for (size_t i = 0; i < n; ++i) body` is `forLoop n body`.
* The `float` buffers of `verify.cpp` are only copied by the three geometric
  operators, which are therefore written over an arbitrary element type.
* `compare_arrays` is given twice: read over exact rationals (`compare_arrays`),
  and in `float` arithmetic (`compare_arraysF`), where the `float` operations are a
  parameter and `f32` is their IEEE 754 binary32 meaning.
* A run of a `main` ends as an `Outcome`: terminated by an uncaught exception, or
  returned from with an exit status.
-/

namespace CpuGpuMatrix

/-! ## Machine arithmetic and memory -/

/-- Modulus of `size_t` arithmetic. -/
def SIZE_MOD : Nat := 2 ^ 64

/-- Subtraction of two `size_t` values (wraps around below zero). -/
def szSub (a b : Nat) : Nat := (a + SIZE_MOD - b % SIZE_MOD) % SIZE_MOD

/-- Function `idx` of main.cpp and verify.cpp:
`inline size_t idx(size_t r, size_t c, size_t cols) { return r * cols + c; }`. -/
def idx (r c cols : Nat) : Nat := (r * cols + c) % SIZE_MOD

/-- Read `buf[k]`; `none` outside the allocation. -/
def load {α : Type} (buf : List α) (k : Nat) : Option α := buf[k]?

/-- Write `buf[k] = v`; `none` outside the allocation. -/
def store {α : Type} (buf : List α) (k : Nat) (v : α) : Option (List α) :=
  if k < buf.length then some (buf.set k v) else none

/-- Counted loop `for (size_t i = 0; i < n; ++i) s = body i s`: the iterations
`0, 1, ..., n - 1` run in this order, and a failing iteration fails the loop. -/
def forLoop {σ : Type} (n : Nat) (body : Nat → σ → Option σ) (s : σ) : Option σ :=
  match n with
  | 0 => some s
  | k + 1 => (forLoop k body s).bind (body k)

/-! ## Transform operators -/

/-- Destination offset written by `transpose` for the source coordinate `(i, j)`:
`idx(j, i, rows)`. -/
def transposeDst (rows _cols i j : Nat) : Nat := idx j i rows

/-- Destination offset written by `rotate180` for the source coordinate `(i, j)`:
`idx(rows - 1 - i, cols - 1 - j, cols)`. -/
def rotate180Dst (rows cols i j : Nat) : Nat :=
  idx (szSub (szSub rows 1) i) (szSub (szSub cols 1) j) cols

/-- Destination offset written by `reflect_right_left` for the source coordinate
`(i, j)`: `idx(i, cols - 1 - j, cols)`. -/
def reflectDst (_rows cols i j : Nat) : Nat := idx i (szSub (szSub cols 1) j) cols

/-- Destination offset written by `rotate90Clockwise` for the source coordinate
`(i, j)`: `idx(j, rows - 1 - i, rows)`. -/
def rotate90Dst (rows _cols i j : Nat) : Nat := idx j (szSub (szSub rows 1) i) rows

/-- Function `transpose` of main.cpp:
`dst[idx(j, i, rows)] = src[idx(i, j, cols)]` for `i < rows`, `j < cols`. -/
def transpose (src dst : List Int) (rows cols : Nat) : Option (List Int) :=
  forLoop rows (fun i dst =>
    forLoop cols (fun j dst =>
      (load src (idx i j cols)).bind (fun v => store dst (transposeDst rows cols i j) v)) dst) dst

/-- Function `rotate180` of verify.cpp:
`dst[idx(rows - 1 - i, cols - 1 - j, cols)] = src[idx(i, j, cols)]`. -/
def rotate180 {α : Type} (src dst : List α) (rows cols : Nat) : Option (List α) :=
  forLoop rows (fun i dst =>
    forLoop cols (fun j dst =>
      (load src (idx i j cols)).bind (fun v => store dst (rotate180Dst rows cols i j) v)) dst) dst

/-- Function `reflect_right_left` of verify.cpp:
`dst[idx(i, cols - 1 - j, cols)] = src[idx(i, j, cols)]`. -/
def reflect_right_left {α : Type} (src dst : List α) (rows cols : Nat) : Option (List α) :=
  forLoop rows (fun i dst =>
    forLoop cols (fun j dst =>
      (load src (idx i j cols)).bind (fun v => store dst (reflectDst rows cols i j) v)) dst) dst

/-- Function `rotate90Clockwise` of verify.cpp:
`dst[idx(j, rows - 1 - i, rows)] = src[idx(i, j, cols)]`. -/
def rotate90Clockwise {α : Type} (src dst : List α) (rows cols : Nat) : Option (List α) :=
  forLoop rows (fun i dst =>
    forLoop cols (fun j dst =>
      (load src (idx i j cols)).bind (fun v => store dst (rotate90Dst rows cols i j) v)) dst) dst

/-! ## The operators with a log of their stores

The same four loop nests, run on a destination buffer paired with the list of the
offsets stored to so far (oldest first): every store appends its offset. -/

/-- Write `buf[k] = v` and record the offset `k` in the log. -/
def storeLogged {α : Type} (st : List α × List Nat) (k : Nat) (v : α) :
    Option (List α × List Nat) :=
  (store st.1 k v).map (fun buf => (buf, st.2 ++ [k]))

/-- Loop nest of `transpose` (main.cpp) with every store logged. -/
def transposeLogged (src dst : List Int) (rows cols : Nat) : Option (List Int × List Nat) :=
  forLoop rows (fun i st =>
    forLoop cols (fun j st =>
      (load src (idx i j cols)).bind (fun v =>
        storeLogged st (transposeDst rows cols i j) v)) st) (dst, [])

/-- Loop nest of `rotate180` (verify.cpp) with every store logged. -/
def rotate180Logged {α : Type} (src dst : List α) (rows cols : Nat) :
    Option (List α × List Nat) :=
  forLoop rows (fun i st =>
    forLoop cols (fun j st =>
      (load src (idx i j cols)).bind (fun v =>
        storeLogged st (rotate180Dst rows cols i j) v)) st) (dst, [])

/-- Loop nest of `reflect_right_left` (verify.cpp) with every store logged. -/
def reflectLogged {α : Type} (src dst : List α) (rows cols : Nat) :
    Option (List α × List Nat) :=
  forLoop rows (fun i st =>
    forLoop cols (fun j st =>
      (load src (idx i j cols)).bind (fun v =>
        storeLogged st (reflectDst rows cols i j) v)) st) (dst, [])

/-- Loop nest of `rotate90Clockwise` (verify.cpp) with every store logged. -/
def rotate90Logged {α : Type} (src dst : List α) (rows cols : Nat) :
    Option (List α × List Nat) :=
  forLoop rows (fun i st =>
    forLoop cols (fun j st =>
      (load src (idx i j cols)).bind (fun v =>
        storeLogged st (rotate90Dst rows cols i j) v)) st) (dst, [])

/-- Loop nest copying `src[s i j]` to `dst[d i j]` with every store logged. -/
def copyLoopLogged {α : Type} (d s : Nat → Nat → Nat) (src : List α)
    (st : List α × List Nat) (rows cols : Nat) : Option (List α × List Nat) :=
  forLoop rows (fun i st =>
    forLoop cols (fun j st =>
      (load src (s i j)).bind (fun v => storeLogged st (d i j) v)) st) st

/-! ## Generic copy loop (proof device)

The four operators share one shape: a loop nest copying `src[s i j]` to
`dst[d i j]`. -/

/-- Loop nest copying `src[s i j]` to `dst[d i j]` for `i < rows`, `j < cols`. -/
def copyLoop {α : Type} (d s : Nat → Nat → Nat) (src dst : List α) (rows cols : Nat) :
    Option (List α) :=
  forLoop rows (fun i dst =>
    forLoop cols (fun j dst =>
      (load src (s i j)).bind (fun v => store dst (d i j) v)) dst) dst

/-! ## compare.cpp: the binary file comparator -/

/-- The scan of compare.cpp, lines 58-66:
`for (i = 0; i < total_size; ++i) if (cpu[i] != gpu[i]) { match = false; first_diff = i; break; }`
with `remaining = total_size - i` iterations left. The result is the pair
`(match, first_diff)`, initially `(true, 0)`. -/
def scanLoop (cpu gpu : List Int) : Nat → Nat → Option (Bool × Nat)
  | 0, _ => some (true, 0)
  | remaining + 1, i =>
    match load cpu i, load gpu i with
    | some x, some y =>
      if x ≠ y then some (false, i) else scanLoop cpu gpu remaining (i + 1)
    | _, _ => none

/-- What the comparator prints. -/
inductive CompareOutput where
  | errSizeUnknown
  | errNotFound (file : String)
  | errShortRead (read expected : Nat)
  | reportMatch (compared : Nat) (cpuFragment gpuFragment : List Int)
  | reportMismatch (compared : Nat) (cpuFragment gpuFragment : List Int)
      (first_diff : Nat) (cpuValue gpuValue : Int)
  deriving DecidableEq, Repr

/-- Fragment printed by `for (i = 0; i < min(size_t(10), total_size); ++i) cout << buf[i]`. -/
def printFirst (buf : List Int) (total : Nat) : Option (List Int) :=
  forLoop (min 10 total) (fun i out => (load buf i).map (fun v => out ++ [v])) []

/-- Lines 58-93 of compare.cpp `main`: scan, report, exit status
(`return match ? 0 : 1`). The result is the pair (exit status, output). -/
def compareBuffers (cpu gpu : List Int) (total : Nat) : Option (Nat × CompareOutput) :=
  (scanLoop cpu gpu total 0).bind (fun r =>
    (printFirst cpu total).bind (fun fc =>
      (printFirst gpu total).bind (fun fg =>
        if r.1 then some (0, CompareOutput.reportMatch total fc fg)
        else
          (load cpu r.2).bind (fun x =>
            (load gpu r.2).bind (fun y =>
              some (1, CompareOutput.reportMismatch total fc fg r.2 x y))))))

/-! ### Runs of a program

Each `main` is run in an environment that fixes what the library calls of the run
answer: how `stoull`, `stoul` and `stoi` convert an argument (or throw), whether a
vector can be constructed, what `stat`, `fopen`, `fread` and `fwrite` deliver, and
the values the random generator produces. No `main` has a `try` block, so an
exception ends the run through `std::terminate`. -/

/-- Default tolerance `1e-5f`: the `float` nearest to `1e-5`. -/
def DEFAULT_EPS : ℚ := 10995116 / 2 ^ 40

/-- Loop state of `compare_arrays`: the counter `errors`, `max_diff`, and the
mismatch lines printed so far (index, `a[i]`, `b[i]`, `diff`). -/
structure CmpState where
  errors : Nat
  max_diff : ℚ
  printed : List (Nat × ℚ × ℚ × ℚ)
  deriving DecidableEq

/-- Result of `compare_arrays`: the returned flag, the mismatch lines printed, and
the summary printed when `errors > 0` (errors, `n`, the percentage
`100.0 * errors / n`, `max_diff`). -/
structure CmpResult where
  ok : Bool
  printed : List (Nat × ℚ × ℚ × ℚ)
  summary : Option (Nat × Nat × ℚ × ℚ)
  deriving DecidableEq

/-- Body of the loop of `compare_arrays` (lines 41-49 of verify.cpp), read over
exact rationals. -/
def compareStep (a b : List ℚ) (eps : ℚ) (i : Nat) (st : CmpState) : Option CmpState :=
  (load a i).bind (fun x =>
    (load b i).bind (fun y =>
      let diff := |x - y|
      if diff > eps then
        some { errors := (st.errors + 1) % SIZE_MOD
               max_diff := max st.max_diff diff
               printed := if st.errors < 5 then st.printed ++ [(i, x, y, diff)] else st.printed }
      else some st))

/-- Function `compare_arrays` of verify.cpp, read over exact rationals. -/
def compare_arrays (a b : List ℚ) (n : Nat) (eps : ℚ) : Option CmpResult :=
  (forLoop n (compareStep a b eps) { errors := 0, max_diff := 0, printed := [] }).map (fun st =>
    if st.errors > 0 then
      { ok := false
        printed := st.printed
        summary := some (st.errors, n, 100 * (st.errors : ℚ) / (n : ℚ), st.max_diff) }
    else
      { ok := true, printed := st.printed, summary := none })

/-! ### The comparator in `float` arithmetic

`compare_arrays` computes `fabs(a[i] - b[i])` and `diff > eps` in `float`.
The definitions above read these operations over exact rationals; the definitions
below take the `float` operations the function uses as a parameter, and `f32` gives
them their IEEE 754 binary32 meaning. -/

/-- The `float` operations used by `compare_arrays`: the constant `0.0f`,
subtraction `x - y`, `fabs`, and the comparison `x < y` (`x > y` is `y < x`). -/
structure FloatOps (F : Type) where
  zero : F
  sub : F → F → F
  abs : F → F
  lt : F → F → Bool

/-- Loop state of `compare_arrays` over `float` values. -/
structure FCmpState (F : Type) where
  errors : Nat
  max_diff : F
  printed : List (Nat × F × F × F)
  deriving DecidableEq

/-- Result of `compare_arrays` over `float` values: the returned flag, the mismatch
lines printed, and the values of the summary printed when `errors > 0` (`errors`,
`n`, `max_diff`; the percentage printed with them is computed from `errors` and
`n`). -/
structure FCmpResult (F : Type) where
  ok : Bool
  printed : List (Nat × F × F × F)
  summary : Option (Nat × Nat × F)
  deriving DecidableEq

/-- Body of the loop of `compare_arrays` (lines 41-49 of verify.cpp):
`float diff = fabs(a[i] - b[i]); if (diff > eps) { ... errors++; max_diff = max(max_diff, diff); }`
where `std::max(x, y)` is `(x < y) ? y : x`. -/
def compareStepF {F : Type} (ops : FloatOps F) (a b : List F) (eps : F) (i : Nat)
    (st : FCmpState F) : Option (FCmpState F) :=
  (load a i).bind (fun x =>
    (load b i).bind (fun y =>
      let diff := ops.abs (ops.sub x y)
      if ops.lt eps diff = true then
        some { errors := (st.errors + 1) % SIZE_MOD
               max_diff := if ops.lt st.max_diff diff = true then diff else st.max_diff
               printed := if st.errors < 5 then st.printed ++ [(i, x, y, diff)] else st.printed }
      else some st))

/-- Function `compare_arrays` of verify.cpp over `float` values. -/
def compare_arraysF {F : Type} (ops : FloatOps F) (a b : List F) (n : Nat) (eps : F) :
    Option (FCmpResult F) :=
  (forLoop n (compareStepF ops a b eps)
      { errors := 0, max_diff := ops.zero, printed := [] }).map (fun st =>
    if st.errors > 0 then
      { ok := false, printed := st.printed, summary := some (st.errors, n, st.max_diff) }
    else
      { ok := true, printed := st.printed, summary := none })

/-- Values of IEEE 754 binary32: the finite values (as rationals; the two zeros are
not told apart), the two infinities and NaN. -/
inductive F32 where
  | fin (q : ℚ)
  | inf (negative : Bool)
  | nan
  deriving DecidableEq

/-- The power `2 ^ e` for an integer exponent. -/
def pow2 (e : Int) : ℚ :=
  if 0 ≤ e then ((2 ^ e.toNat : Nat) : ℚ) else 1 / ((2 ^ (-e).toNat : Nat) : ℚ)

/-- Rounding of a rational to the nearest integer, ties to the even one. -/
def roundHalfEven (q : ℚ) : Int :=
  if q - (Rat.floor q : ℚ) < 1 / 2 then Rat.floor q
  else if 1 / 2 < q - (Rat.floor q : ℚ) then Rat.floor q + 1
  else if Rat.floor q % 2 = 0 then Rat.floor q
  else Rat.floor q + 1

/-- The binary32 exponent of a magnitude `q > 0`: the largest `e` in `-126 .. 128`
with `2 ^ e <= q`, and `-126` when there is none (the subnormal range). It is
`-126` plus the number of exponents `-125, ..., 128` whose power of two is at most
`q`. -/
def exponent32 (q : ℚ) : Int :=
  -126 + (((List.range 254).filter (fun k => decide (pow2 ((k : Int) - 125) ≤ q))).length : Int)

/-- Rounding of an exact result to binary32, to nearest, ties to even: 24
significant bits (a spacing of `2 ^ (e - 23)` at exponent `e`), the spacing
`2 ^ (-149)` throughout the subnormal range, and overflow to infinity when the
rounded magnitude reaches `2 ^ 128`. -/
def round32 (q : ℚ) : F32 :=
  if q = 0 then F32.fin 0
  else
    let ulp := pow2 (exponent32 |q| - 23)
    let r := (roundHalfEven (q / ulp) : ℚ) * ulp
    if pow2 128 ≤ |r| then F32.inf (decide (q < 0)) else F32.fin r

/-- Subtraction `x - y` of binary32. -/
def F32.sub : F32 → F32 → F32
  | F32.fin x, F32.fin y => round32 (x - y)
  | F32.fin _, F32.inf t => F32.inf (!t)
  | F32.inf s, F32.fin _ => F32.inf s
  | F32.inf s, F32.inf t => if s = t then F32.nan else F32.inf s
  | F32.nan, _ => F32.nan
  | _, F32.nan => F32.nan

/-- Function `fabs` on binary32. -/
def F32.abs : F32 → F32
  | F32.fin x => F32.fin |x|
  | F32.inf _ => F32.inf false
  | F32.nan => F32.nan

/-- Comparison `x < y` of binary32 (false when an operand is NaN). -/
def F32.lt : F32 → F32 → Bool
  | F32.fin x, F32.fin y => decide (x < y)
  | F32.fin _, F32.inf t => !t
  | F32.inf s, F32.fin _ => s
  | F32.inf s, F32.inf t => s && !t
  | F32.nan, _ => false
  | _, F32.nan => false

/-- The `float` operations of `compare_arrays` in binary32. -/
def f32 : FloatOps F32 where
  zero := F32.fin 0
  sub := F32.sub
  abs := F32.abs
  lt := F32.lt

/-- The offsets `d i j` of the coordinates `(i, j)`, `i < R`, `j < C`, listed in
row-major order of the coordinates. -/
def rowMajorOffsets (d : Nat → Nat → Nat) (R C : Nat) : List Nat :=
  (List.range R).flatMap (fun i => (List.range C).map (fun j => d i j))

/-- A log of stores in which each of the offsets `0, ..., N - 1` occurs exactly once
and nothing else occurs. -/
def WritesEachOnce (log : List Nat) (N : Nat) : Prop :=
  log.length = N ∧ ∀ k, k < N → log.count k = 1

theorem transpose_eq_copyLoop (src dst : List Int) (rows cols : Nat) :
    transpose src dst rows cols
      = copyLoop (transposeDst rows cols) (fun i j => idx i j cols) src dst rows cols := rfl

theorem rotate180_eq_copyLoop {α : Type} (src dst : List α) (rows cols : Nat) :
    rotate180 src dst rows cols
      = copyLoop (rotate180Dst rows cols) (fun i j => idx i j cols) src dst rows cols := rfl

theorem reflect_eq_copyLoop {α : Type} (src dst : List α) (rows cols : Nat) :
    reflect_right_left src dst rows cols
      = copyLoop (reflectDst rows cols) (fun i j => idx i j cols) src dst rows cols := rfl

theorem rotate90_eq_copyLoop {α : Type} (src dst : List α) (rows cols : Nat) :
    rotate90Clockwise src dst rows cols
      = copyLoop (rotate90Dst rows cols) (fun i j => idx i j cols) src dst rows cols := rfl

theorem forLoop_zero {σ : Type} (body : Nat → σ → Option σ) (s : σ) :
    forLoop 0 body s = some s := rfl

theorem forLoop_succ {σ : Type} (n : Nat) (body : Nat → σ → Option σ) (s : σ) :
    forLoop (n + 1) body s = (forLoop n body s).bind (body n) := rfl

/-- Inner loop of `copyLoop` for a fixed row `i`, run for `n` iterations. -/
theorem copy_inner {α : Type} (d s : Nat → Nat) (src : List α) (n : Nat) :
    ∀ (dst : List α),
      (∀ j, j < n → s j < src.length) →
      (∀ j, j < n → d j < dst.length) →
      (∀ j j2, j < n → j2 < n → d j = d j2 → j = j2) →
      ∃ out, forLoop n (fun j dst => (load src (s j)).bind (fun v => store dst (d j) v)) dst
            = some out ∧ out.length = dst.length ∧
          (∀ j, j < n → out[d j]? = src[s j]?) ∧
          (∀ k, (∀ j, j < n → d j ≠ k) → out[k]? = dst[k]?) := by
  induction n with
  | zero =>
    intro dst _ _ _
    exact ⟨dst, rfl, rfl, fun j hj => absurd hj (Nat.not_lt_zero j), fun k _ => rfl⟩
  | succ n ih =>
    intro dst hs hd hinj
    obtain ⟨mid, hrun, hlen, hcopied, hrest⟩ :=
      ih dst (fun j hj => hs j (Nat.lt_succ_of_lt hj)) (fun j hj => hd j (Nat.lt_succ_of_lt hj))
        (fun j j2 hj hj2 => hinj j j2 (Nat.lt_succ_of_lt hj) (Nat.lt_succ_of_lt hj2))
    have hsn : s n < src.length := hs n (Nat.lt_succ_self n)
    have hdn : d n < mid.length := by rw [hlen]; exact hd n (Nat.lt_succ_self n)
    refine ⟨mid.set (d n) (src[s n]), ?_, ?_, ?_, ?_⟩
    · rw [forLoop_succ, hrun]
      simp only [Option.some_bind, load, store]
      rw [List.getElem?_eq_getElem hsn]
      simp [hdn]
    · simp [hlen]
    · intro j hj
      rcases Nat.lt_succ_iff_lt_or_eq.mp hj with hlt | heq
      · have hne : d n ≠ d j := by
          intro h
          have := hinj n j (Nat.lt_succ_self n) hj h
          omega
        rw [List.getElem?_set_ne hne]
        exact hcopied j hlt
      · subst heq
        rw [List.getElem?_set_self, List.getElem?_eq_getElem hsn]
        simp [hdn]
    · intro k hk
      have hne : d n ≠ k := hk n (Nat.lt_succ_self n)
      rw [List.getElem?_set_ne hne]
      exact hrest k (fun j hj => hk j (Nat.lt_succ_of_lt hj))

/-- Outer loop of `copyLoop`, run for `m` rows. -/
theorem copy_outer {α : Type} (d s : Nat → Nat → Nat) (src : List α) (cols : Nat) (m : Nat) :
    ∀ (dst : List α),
      (∀ i j, i < m → j < cols → s i j < src.length) →
      (∀ i j, i < m → j < cols → d i j < dst.length) →
      (∀ i j i2 j2, i < m → j < cols → i2 < m → j2 < cols → d i j = d i2 j2 → i = i2 ∧ j = j2) →
      ∃ out, copyLoop d s src dst m cols = some out ∧ out.length = dst.length ∧
          (∀ i j, i < m → j < cols → out[d i j]? = src[s i j]?) ∧
          (∀ k, (∀ i j, i < m → j < cols → d i j ≠ k) → out[k]? = dst[k]?) := by
  induction m with
  | zero =>
    intro dst _ _ _
    exact ⟨dst, rfl, rfl, fun i j hi => absurd hi (Nat.not_lt_zero i), fun k _ => rfl⟩
  | succ m ih =>
    intro dst hs hd hinj
    obtain ⟨mid, hrun, hlen, hcopied, hrest⟩ :=
      ih dst (fun i j hi hj => hs i j (Nat.lt_succ_of_lt hi) hj)
        (fun i j hi hj => hd i j (Nat.lt_succ_of_lt hi) hj)
        (fun i j i2 j2 hi hj hi2 hj2 =>
          hinj i j i2 j2 (Nat.lt_succ_of_lt hi) hj (Nat.lt_succ_of_lt hi2) hj2)
    obtain ⟨out, hrow, hlen2, hcopied2, hrest2⟩ :=
      copy_inner (d m) (s m) src cols mid
        (fun j hj => hs m j (Nat.lt_succ_self m) hj)
        (fun j hj => by rw [hlen]; exact hd m j (Nat.lt_succ_self m) hj)
        (fun j j2 hj hj2 h =>
          (hinj m j m j2 (Nat.lt_succ_self m) hj (Nat.lt_succ_self m) hj2 h).2)
    refine ⟨out, ?_, by rw [hlen2, hlen], ?_, ?_⟩
    · unfold copyLoop at hrun ⊢
      rw [forLoop_succ, hrun]
      exact hrow
    · intro i j hi hj
      rcases Nat.lt_succ_iff_lt_or_eq.mp hi with hlt | heq
      · rw [hrest2 (d i j)]
        · exact hcopied i j hlt hj
        · intro j2 hj2 h
          have := (hinj m j2 i j (Nat.lt_succ_self m) hj2 hi hj h).1
          omega
      · subst heq
        exact hcopied2 j hj
    · intro k hk
      rw [hrest2 k (fun j hj => hk m j (Nat.lt_succ_self m) hj)]
      exact hrest k (fun i j hi hj => hk i j (Nat.lt_succ_of_lt hi) hj)

/-! ## Index arithmetic -/

theorem idx_eq (r c cols : Nat) (h : r * cols + c < SIZE_MOD) : idx r c cols = r * cols + c :=
  Nat.mod_eq_of_lt h

theorem szSub_eq (a b : Nat) (ha : a < SIZE_MOD) (hb : b ≤ a) : szSub a b = a - b := by
  unfold szSub
  have hb2 : b < SIZE_MOD := lt_of_le_of_lt hb ha
  rw [Nat.mod_eq_of_lt hb2]
  have : a + SIZE_MOD - b = (a - b) + SIZE_MOD := by omega
  rw [this, Nat.add_mod_right]
  exact Nat.mod_eq_of_lt (by omega)

/-- Row-major offsets stay inside the buffer. -/
theorem offset_lt (R C i j : Nat) (hi : i < R) (hj : j < C) : i * C + j < R * C := by
  calc i * C + j < i * C + C := by omega
    _ = (i + 1) * C := by ring
    _ ≤ R * C := Nat.mul_le_mul_right C hi

/-- Row-major offsets determine the coordinate. -/
theorem offset_inj (C i j i2 j2 : Nat) (hj : j < C) (hj2 : j2 < C)
    (h : i * C + j = i2 * C + j2) : i = i2 ∧ j = j2 := by
  have hC : 0 < C := by omega
  have h1 : (i * C + j) / C = i := by
    rw [Nat.add_comm, Nat.add_mul_div_right _ _ hC, Nat.div_eq_of_lt hj]; simp
  have h2 : (i2 * C + j2) / C = i2 := by
    rw [Nat.add_comm, Nat.add_mul_div_right _ _ hC, Nat.div_eq_of_lt hj2]; simp
  have hi : i = i2 := by rw [← h1, ← h2, h]
  subst hi
  exact ⟨rfl, by omega⟩

theorem transposeDst_eq (R C i j : Nat) (hRC : R * C < SIZE_MOD) (hi : i < R) (hj : j < C) :
    transposeDst R C i j = j * R + i := by
  unfold transposeDst
  apply idx_eq
  have := offset_lt C R j i hj hi
  rw [Nat.mul_comm C R] at this
  omega

theorem srcOffset_eq (R C i j : Nat) (hRC : R * C < SIZE_MOD) (hi : i < R) (hj : j < C) :
    idx i j C = i * C + j := by
  apply idx_eq
  have := offset_lt R C i j hi hj
  omega

theorem dim_lt_left (R C : Nat) (hRC : R * C < SIZE_MOD) (hC : 0 < C) : R < SIZE_MOD :=
  lt_of_le_of_lt (Nat.le_mul_of_pos_right R hC) hRC

theorem dim_lt_right (R C : Nat) (hRC : R * C < SIZE_MOD) (hR : 0 < R) : C < SIZE_MOD :=
  lt_of_le_of_lt (Nat.le_mul_of_pos_left C hR) hRC

/-- The expression `n - 1 - i` of verify.cpp for `i < n`. -/
theorem mirror_eq (n i : Nat) (hn : n < SIZE_MOD) (hi : i < n) :
    szSub (szSub n 1) i = n - 1 - i := by
  rw [szSub_eq n 1 hn (by omega), szSub_eq (n - 1) i (by omega) (by omega)]

theorem rotate180Dst_eq (R C i j : Nat) (hRC : R * C < SIZE_MOD) (hi : i < R) (hj : j < C) :
    rotate180Dst R C i j = (R - 1 - i) * C + (C - 1 - j) := by
  unfold rotate180Dst
  rw [mirror_eq R i (dim_lt_left R C hRC (by omega)) hi,
    mirror_eq C j (dim_lt_right R C hRC (by omega)) hj]
  apply idx_eq
  have := offset_lt R C (R - 1 - i) (C - 1 - j) (by omega) (by omega)
  omega

theorem reflectDst_eq (R C i j : Nat) (hRC : R * C < SIZE_MOD) (hi : i < R) (hj : j < C) :
    reflectDst R C i j = i * C + (C - 1 - j) := by
  unfold reflectDst
  rw [mirror_eq C j (dim_lt_right R C hRC (by omega)) hj]
  apply idx_eq
  have := offset_lt R C i (C - 1 - j) hi (by omega)
  omega

theorem rotate90Dst_eq (R C i j : Nat) (hRC : R * C < SIZE_MOD) (hi : i < R) (hj : j < C) :
    rotate90Dst R C i j = j * R + (R - 1 - i) := by
  unfold rotate90Dst
  rw [mirror_eq R i (dim_lt_left R C hRC (by omega)) hi]
  apply idx_eq
  have := offset_lt C R j (R - 1 - i) hj (by omega)
  rw [Nat.mul_comm C R] at this
  omega

/-- A copy loop whose destination offsets follow an injective closed formula `f`
with values below `R * C` fills a destination of `R * C` elements. -/
theorem copy_closed {α : Type} (d f : Nat → Nat → Nat) (src dst : List α) (R C : Nat)
    (hRC : R * C < SIZE_MOD) (hsrc : src.length = R * C) (hdst : dst.length = R * C)
    (hd : ∀ i j, i < R → j < C → d i j = f i j)
    (hf : ∀ i j, i < R → j < C → f i j < R * C)
    (hinj : ∀ i j i2 j2, i < R → j < C → i2 < R → j2 < C → f i j = f i2 j2 → i = i2 ∧ j = j2) :
    ∃ out, copyLoop d (fun i j => idx i j C) src dst R C = some out ∧ out.length = R * C ∧
      ∀ i j, i < R → j < C → ∃ v, src[i * C + j]? = some v ∧ out[f i j]? = some v := by
  obtain ⟨out, hrun, hlen, hcopied, -⟩ :=
    copy_outer d (fun i j => idx i j C) src C R dst
      (fun i j hi hj => by
        show idx i j C < src.length
        rw [srcOffset_eq R C i j hRC hi hj, hsrc]; exact offset_lt R C i j hi hj)
      (fun i j hi hj => by rw [hd i j hi hj, hdst]; exact hf i j hi hj)
      (fun i j i2 j2 hi hj hi2 hj2 h => by
        rw [hd i j hi hj, hd i2 j2 hi2 hj2] at h
        exact hinj i j i2 j2 hi hj hi2 hj2 h)
  refine ⟨out, hrun, by rw [hlen, hdst], ?_⟩
  intro i j hi hj
  have hlt : i * C + j < src.length := by rw [hsrc]; exact offset_lt R C i j hi hj
  refine ⟨src[i * C + j], List.getElem?_eq_getElem hlt, ?_⟩
  have h := hcopied i j hi hj
  rw [hd i j hi hj] at h
  rw [h]
  show src[idx i j C]? = _
  rw [srcOffset_eq R C i j hRC hi hj]
  exact List.getElem?_eq_getElem hlt

/-! ## Closed formulas of the four destination offsets -/

theorem transposeF_lt (R C i j : Nat) (hi : i < R) (hj : j < C) : j * R + i < R * C := by
  have := offset_lt C R j i hj hi
  rwa [Nat.mul_comm C R] at this

theorem transposeF_inj (R C i j i2 j2 : Nat) (hi : i < R) (_hj : j < C) (hi2 : i2 < R)
    (_hj2 : j2 < C) (h : j * R + i = j2 * R + i2) : i = i2 ∧ j = j2 :=
  (offset_inj R j i j2 i2 hi hi2 h).symm

theorem rotate180F_lt (R C i j : Nat) (hi : i < R) (hj : j < C) :
    (R - 1 - i) * C + (C - 1 - j) < R * C :=
  offset_lt R C (R - 1 - i) (C - 1 - j) (by omega) (by omega)

theorem rotate180F_inj (R C i j i2 j2 : Nat) (hi : i < R) (hj : j < C) (hi2 : i2 < R)
    (hj2 : j2 < C) (h : (R - 1 - i) * C + (C - 1 - j) = (R - 1 - i2) * C + (C - 1 - j2)) :
    i = i2 ∧ j = j2 := by
  have := offset_inj C (R - 1 - i) (C - 1 - j) (R - 1 - i2) (C - 1 - j2) (by omega) (by omega) h
  omega

theorem reflectF_lt (R C i j : Nat) (hi : i < R) (hj : j < C) : i * C + (C - 1 - j) < R * C :=
  offset_lt R C i (C - 1 - j) hi (by omega)

theorem reflectF_inj (R C i j i2 j2 : Nat) (_hi : i < R) (hj : j < C) (_hi2 : i2 < R)
    (hj2 : j2 < C) (h : i * C + (C - 1 - j) = i2 * C + (C - 1 - j2)) : i = i2 ∧ j = j2 := by
  have := offset_inj C i (C - 1 - j) i2 (C - 1 - j2) (by omega) (by omega) h
  omega

theorem rotate90F_lt (R C i j : Nat) (hi : i < R) (hj : j < C) : j * R + (R - 1 - i) < R * C := by
  have := offset_lt C R j (R - 1 - i) hj (by omega)
  rwa [Nat.mul_comm C R] at this

theorem rotate90F_inj (R C i j i2 j2 : Nat) (hi : i < R) (_hj : j < C) (hi2 : i2 < R)
    (_hj2 : j2 < C) (h : j * R + (R - 1 - i) = j2 * R + (R - 1 - i2)) : i = i2 ∧ j = j2 := by
  have := offset_inj R j (R - 1 - i) j2 (R - 1 - i2) (by omega) (by omega) h
  omega

/-! ## Pointwise specification of the operators -/

theorem rotate180_spec {α : Type} (R C : Nat) (src dst : List α) (hRC : R * C < SIZE_MOD)
    (hsrc : src.length = R * C) (hdst : dst.length = R * C) :
    ∃ out, rotate180 src dst R C = some out ∧ out.length = R * C ∧
      ∀ i j, i < R → j < C →
        ∃ v, src[i * C + j]? = some v ∧ out[(R - 1 - i) * C + (C - 1 - j)]? = some v := by
  rw [rotate180_eq_copyLoop]
  exact copy_closed (rotate180Dst R C) (fun i j => (R - 1 - i) * C + (C - 1 - j)) src dst R C hRC
    hsrc hdst (fun i j hi hj => rotate180Dst_eq R C i j hRC hi hj) (rotate180F_lt R C)
    (rotate180F_inj R C)

theorem reflect_spec {α : Type} (R C : Nat) (src dst : List α) (hRC : R * C < SIZE_MOD)
    (hsrc : src.length = R * C) (hdst : dst.length = R * C) :
    ∃ out, reflect_right_left src dst R C = some out ∧ out.length = R * C ∧
      ∀ i j, i < R → j < C →
        ∃ v, src[i * C + j]? = some v ∧ out[i * C + (C - 1 - j)]? = some v := by
  rw [reflect_eq_copyLoop]
  exact copy_closed (reflectDst R C) (fun i j => i * C + (C - 1 - j)) src dst R C hRC
    hsrc hdst (fun i j hi hj => reflectDst_eq R C i j hRC hi hj) (reflectF_lt R C)
    (reflectF_inj R C)

theorem rotate90_spec {α : Type} (R C : Nat) (src dst : List α) (hRC : R * C < SIZE_MOD)
    (hsrc : src.length = R * C) (hdst : dst.length = R * C) :
    ∃ out, rotate90Clockwise src dst R C = some out ∧ out.length = R * C ∧
      ∀ i j, i < R → j < C →
        ∃ v, src[i * C + j]? = some v ∧ out[j * R + (R - 1 - i)]? = some v := by
  rw [rotate90_eq_copyLoop]
  exact copy_closed (rotate90Dst R C) (fun i j => j * R + (R - 1 - i)) src dst R C hRC
    hsrc hdst (fun i j hi hj => rotate90Dst_eq R C i j hRC hi hj) (rotate90F_lt R C)
    (rotate90F_inj R C)

theorem transpose_spec (R C : Nat) (src dst : List Int) (hRC : R * C < SIZE_MOD)
    (hsrc : src.length = R * C) (hdst : dst.length = R * C) :
    ∃ out, transpose src dst R C = some out ∧ out.length = R * C ∧
      ∀ i j, i < R → j < C →
        ∃ v, src[i * C + j]? = some v ∧ out[j * R + i]? = some v := by
  rw [transpose_eq_copyLoop]
  exact copy_closed (transposeDst R C) (fun i j => j * R + i) src dst R C hRC
    hsrc hdst (fun i j hi hj => transposeDst_eq R C i j hRC hi hj) (transposeF_lt R C)
    (transposeF_inj R C)

/-- Every offset below `R * C` is the row-major offset of one coordinate. -/
theorem offset_decomp (R C k : Nat) (hk : k < R * C) :
    k / C < R ∧ k % C < C ∧ (k / C) * C + k % C = k := by
  have hC : 0 < C := by
    rcases Nat.eq_zero_or_pos C with h | h
    · subst h; simp at hk
    · exact h
  refine ⟨(Nat.div_lt_iff_lt_mul hC).mpr hk, Nat.mod_lt k hC, ?_⟩
  rw [Nat.mul_comm]
  exact Nat.div_add_mod k C

/-- Two buffers of `R * C` elements that agree at every coordinate are equal. -/
theorem buffer_ext {α : Type} (R C : Nat) (X Y : List α) (hX : X.length = R * C)
    (hY : Y.length = R * C)
    (h : ∀ i j, i < R → j < C → X[i * C + j]? = Y[i * C + j]?) : X = Y := by
  apply List.ext_getElem?
  intro k
  by_cases hk : k < R * C
  · obtain ⟨h1, h2, h3⟩ := offset_decomp R C k hk
    have := h (k / C) (k % C) h1 h2
    rwa [h3] at this
  · rw [List.getElem?_eq_none (by omega), List.getElem?_eq_none (by omega)]

theorem rotate90_spec_eq {α : Type} (R C : Nat) (src dst : List α) (hRC : R * C < SIZE_MOD)
    (hsrc : src.length = R * C) (hdst : dst.length = R * C) :
    ∃ out, rotate90Clockwise src dst R C = some out ∧ out.length = R * C ∧
      ∀ i j, i < R → j < C → out[j * R + (R - 1 - i)]? = src[i * C + j]? := by
  obtain ⟨out, hrun, hlen, hp⟩ := rotate90_spec R C src dst hRC hsrc hdst
  refine ⟨out, hrun, hlen, fun i j hi hj => ?_⟩
  obtain ⟨v, hv1, hv2⟩ := hp i j hi hj
  rw [hv1, hv2]

theorem reflect_spec_eq {α : Type} (R C : Nat) (src dst : List α) (hRC : R * C < SIZE_MOD)
    (hsrc : src.length = R * C) (hdst : dst.length = R * C) :
    ∃ out, reflect_right_left src dst R C = some out ∧ out.length = R * C ∧
      ∀ i j, i < R → j < C → out[i * C + (C - 1 - j)]? = src[i * C + j]? := by
  obtain ⟨out, hrun, hlen, hp⟩ := reflect_spec R C src dst hRC hsrc hdst
  refine ⟨out, hrun, hlen, fun i j hi hj => ?_⟩
  obtain ⟨v, hv1, hv2⟩ := hp i j hi hj
  rw [hv1, hv2]

/-- A destination-offset function with an injective, surjective closed formula is
a bijection from the coordinates onto the offsets below `R * C`. -/
theorem bijOn_of_closed (d f : Nat → Nat → Nat) (R C : Nat)
    (hd : ∀ i j, i < R → j < C → d i j = f i j)
    (hf : ∀ i j, i < R → j < C → f i j < R * C)
    (hinj : ∀ i j i2 j2, i < R → j < C → i2 < R → j2 < C → f i j = f i2 j2 → i = i2 ∧ j = j2)
    (hsurj : ∀ k, k < R * C → ∃ i j, i < R ∧ j < C ∧ f i j = k) :
    Set.BijOn (fun p : Nat × Nat => d p.1 p.2) {p | p.1 < R ∧ p.2 < C} {k | k < R * C} := by
  refine ⟨?_, ?_, ?_⟩
  · rintro ⟨i, j⟩ ⟨hi, hj⟩
    show d i j < R * C
    rw [hd i j hi hj]; exact hf i j hi hj
  · rintro ⟨i, j⟩ ⟨hi, hj⟩ ⟨i2, j2⟩ ⟨hi2, hj2⟩ h
    have h2 : d i j = d i2 j2 := h
    rw [hd i j hi hj, hd i2 j2 hi2 hj2] at h2
    obtain ⟨e1, e2⟩ := hinj i j i2 j2 hi hj hi2 hj2 h2
    rw [e1, e2]
  · intro k hk
    obtain ⟨i, j, hi, hj, e⟩ := hsurj k hk
    exact ⟨(i, j), ⟨hi, hj⟩, by show d i j = k; rw [hd i j hi hj]; exact e⟩

theorem offset_split (R C k : Nat) (hk : k < R * C) :
    ∃ a b, a < R ∧ b < C ∧ a * C + b = k :=
  ⟨k / C, k % C, offset_decomp R C k hk⟩

theorem transposeF_surj (R C k : Nat) (hk : k < R * C) :
    ∃ i j, i < R ∧ j < C ∧ j * R + i = k := by
  obtain ⟨a, b, h1, h2, h3⟩ := offset_split C R k (by rwa [Nat.mul_comm])
  exact ⟨b, a, h2, h1, h3⟩

theorem rotate180F_surj (R C k : Nat) (hk : k < R * C) :
    ∃ i j, i < R ∧ j < C ∧ (R - 1 - i) * C + (C - 1 - j) = k := by
  obtain ⟨a, b, h1, h2, h3⟩ := offset_split R C k hk
  refine ⟨R - 1 - a, C - 1 - b, by omega, by omega, ?_⟩
  have e1 : R - 1 - (R - 1 - a) = a := by omega
  have e2 : C - 1 - (C - 1 - b) = b := by omega
  rw [e1, e2, h3]

theorem reflectF_surj (R C k : Nat) (hk : k < R * C) :
    ∃ i j, i < R ∧ j < C ∧ i * C + (C - 1 - j) = k := by
  obtain ⟨a, b, h1, h2, h3⟩ := offset_split R C k hk
  refine ⟨a, C - 1 - b, h1, by omega, ?_⟩
  have e2 : C - 1 - (C - 1 - b) = b := by omega
  rw [e2, h3]

theorem rotate90F_surj (R C k : Nat) (hk : k < R * C) :
    ∃ i j, i < R ∧ j < C ∧ j * R + (R - 1 - i) = k := by
  obtain ⟨a, b, h1, h2, h3⟩ := offset_split C R k (by rwa [Nat.mul_comm])
  refine ⟨R - 1 - b, a, by omega, h1, ?_⟩
  have e1 : R - 1 - (R - 1 - b) = b := by omega
  rw [e1, h3]

theorem small_lt_SIZE_MOD (n : Nat) (h : n < 1000) : n < SIZE_MOD := by
  unfold SIZE_MOD
  omega

/-! ## Claims about the transform operators -/

/-- C1. `transpose` of main.cpp: for extents `R`, `C` and a source buffer of `R * C`
elements (and a destination allocated with as many), the call returns, the
destination is the `C x R` row-major matrix with `dst[j * R + i] = src[i * C + j]` for
all `i < R`, `j < C`; and the 2x3 input `[1,2,3,4,5,6]` transposes to `[1,4,2,5,3,6]`.
The hypothesis `R * C < 2 ^ 64` says that the element count is a `size_t`. -/
theorem transpose_correct (R C : Nat) (src dst : List Int) (hRC : R * C < SIZE_MOD)
    (hsrc : src.length = R * C) (hdst : dst.length = R * C) :
    (∃ out, transpose src dst R C = some out ∧ out.length = C * R ∧
      ∀ i j, i < R → j < C → ∃ v, src[i * C + j]? = some v ∧ out[j * R + i]? = some v) ∧
    transpose [1, 2, 3, 4, 5, 6] (List.replicate 6 0) 2 3 = some [1, 4, 2, 5, 3, 6] := by
  refine ⟨?_, by decide⟩
  obtain ⟨out, hrun, hlen, hp⟩ := transpose_spec R C src dst hRC hsrc hdst
  exact ⟨out, hrun, by rw [hlen, Nat.mul_comm], hp⟩

/-- Witness of C1 on a 1x2 matrix. -/
theorem transpose_correct_witness :
    (∃ out, transpose [7, 9] [0, 0] 1 2 = some out ∧ out.length = 2 * 1 ∧
      ∀ i j, i < 1 → j < 2 →
        ∃ v, ([7, 9] : List Int)[i * 2 + j]? = some v ∧ out[j * 1 + i]? = some v) ∧
    transpose [1, 2, 3, 4, 5, 6] (List.replicate 6 0) 2 3 = some [1, 4, 2, 5, 3, 6] :=
  transpose_correct 1 2 [7, 9] [0, 0] (small_lt_SIZE_MOD _ (by decide)) rfl rfl

/-- C8. `rotate180` of verify.cpp: for extents `R`, `C` and a source buffer of `R * C`
elements (and a destination allocated with as many), the call returns, the
destination is the `R x C` row-major matrix with
`dst[(R-1-i) * C + (C-1-j)] = src[i * C + j]` for all `i < R`, `j < C`; and the 2x2
input `[1,2,3,4]` rotates to `[4,3,2,1]`. -/
theorem rotate180_correct {α : Type} (R C : Nat) (src dst : List α) (hRC : R * C < SIZE_MOD)
    (hsrc : src.length = R * C) (hdst : dst.length = R * C) :
    (∃ out, rotate180 src dst R C = some out ∧ out.length = R * C ∧
      ∀ i j, i < R → j < C →
        ∃ v, src[i * C + j]? = some v ∧ out[(R - 1 - i) * C + (C - 1 - j)]? = some v) ∧
    rotate180 [(1 : ℚ), 2, 3, 4] (List.replicate 4 0) 2 2 = some [4, 3, 2, 1] := by
  refine ⟨rotate180_spec R C src dst hRC hsrc hdst, by decide⟩

/-- Witness of C8 on a 2x1 matrix. -/
theorem rotate180_correct_witness :
    (∃ out, rotate180 [(7 : ℚ), 9] [0, 0] 2 1 = some out ∧ out.length = 2 * 1 ∧
      ∀ i j, i < 2 → j < 1 →
        ∃ v, ([7, 9] : List ℚ)[i * 1 + j]? = some v ∧
          out[(2 - 1 - i) * 1 + (1 - 1 - j)]? = some v) ∧
    rotate180 [(1 : ℚ), 2, 3, 4] (List.replicate 4 0) 2 2 = some [4, 3, 2, 1] :=
  rotate180_correct 2 1 [7, 9] [0, 0] (small_lt_SIZE_MOD _ (by decide)) rfl rfl

/-! ## The logged loops -/

theorem logged_inner {α : Type} (d s : Nat → Nat) (src : List α) (n : Nat) (dst : List α)
    (log : List Nat) :
    forLoop n (fun j st => (load src (s j)).bind (fun v => storeLogged st (d j) v)) (dst, log)
      = (forLoop n (fun j dst => (load src (s j)).bind (fun v => store dst (d j) v)) dst).map
          (fun out => (out, log ++ (List.range n).map d)) := by
  induction n with
  | zero => simp [forLoop]
  | succ n ih =>
    rw [forLoop_succ, forLoop_succ, ih]
    cases forLoop n (fun j dst => (load src (s j)).bind (fun v => store dst (d j) v)) dst with
    | none => rfl
    | some mid =>
      simp only [Option.map_some', Option.some_bind]
      cases load src (s n) with
      | none => rfl
      | some v =>
        simp only [Option.some_bind, storeLogged]
        cases store mid (d n) v with
        | none => rfl
        | some out => simp [List.range_succ]

theorem rowMajorOffsets_succ (d : Nat → Nat → Nat) (m C : Nat) :
    rowMajorOffsets d (m + 1) C = rowMajorOffsets d m C ++ (List.range C).map (d m) := by
  simp [rowMajorOffsets, List.range_succ, List.flatMap_append]

theorem logged_outer {α : Type} (d s : Nat → Nat → Nat) (src : List α) (cols m : Nat)
    (dst : List α) (log : List Nat) :
    copyLoopLogged d s src (dst, log) m cols
      = (copyLoop d s src dst m cols).map
          (fun out => (out, log ++ rowMajorOffsets d m cols)) := by
  induction m with
  | zero => simp [copyLoopLogged, copyLoop, forLoop, rowMajorOffsets]
  | succ m ih =>
    unfold copyLoopLogged copyLoop at ih ⊢
    rw [forLoop_succ, forLoop_succ, ih]
    cases forLoop m (fun i dst =>
        forLoop cols (fun j dst => (load src (s i j)).bind (fun v => store dst (d i j) v)) dst)
        dst with
    | none => rfl
    | some mid =>
      simp only [Option.map_some', Option.some_bind]
      rw [logged_inner (d m) (s m) src cols mid, rowMajorOffsets_succ]
      cases forLoop cols (fun j dst => (load src (s m j)).bind (fun v => store dst (d m j) v))
          mid with
      | none => rfl
      | some out => simp

theorem mem_rowMajorOffsets (d : Nat → Nat → Nat) (R C k : Nat) :
    k ∈ rowMajorOffsets d R C ↔ ∃ i j, i < R ∧ j < C ∧ d i j = k := by
  simp only [rowMajorOffsets, List.mem_flatMap, List.mem_map, List.mem_range]
  constructor
  · rintro ⟨i, hi, j, hj, e⟩
    exact ⟨i, j, hi, hj, e⟩
  · rintro ⟨i, j, hi, hj, e⟩
    exact ⟨i, hi, j, hj, e⟩

theorem length_rowMajorOffsets (d : Nat → Nat → Nat) (R C : Nat) :
    (rowMajorOffsets d R C).length = R * C := by
  induction R with
  | zero => simp [rowMajorOffsets]
  | succ m ih =>
    rw [rowMajorOffsets_succ, List.length_append, ih, List.length_map, List.length_range]
    ring

theorem nodup_rowMajorOffsets (d : Nat → Nat → Nat) (R C : Nat)
    (hinj : ∀ i j i2 j2, i < R → j < C → i2 < R → j2 < C → d i j = d i2 j2 → i = i2 ∧ j = j2) :
    (rowMajorOffsets d R C).Nodup := by
  unfold rowMajorOffsets
  rw [List.nodup_flatMap]
  constructor
  · intro i hi
    rw [List.mem_range] at hi
    apply List.Nodup.map_on _ (List.nodup_range C)
    intro j hj j2 hj2 e
    rw [List.mem_range] at hj hj2
    exact (hinj i j i j2 hi hj hi hj2 e).2
  · apply List.Nodup.pairwise_of_forall_ne (List.nodup_range R)
    intro i hi i2 hi2 hne
    rw [List.mem_range] at hi hi2
    intro k hk hk2
    rw [List.mem_map] at hk hk2
    obtain ⟨j, hj, e⟩ := hk
    obtain ⟨j2, hj2, e2⟩ := hk2
    rw [List.mem_range] at hj hj2
    exact hne (hinj i j i2 j2 hi hj hi2 hj2 (e.trans e2.symm)).1

/-- The offsets of a destination-offset function that is a bijection onto the
offsets below `R * C`, in row-major order, hold each offset exactly once. -/
theorem writesEachOnce_of_closed (d f : Nat → Nat → Nat) (R C : Nat)
    (hd : ∀ i j, i < R → j < C → d i j = f i j)
    (hinj : ∀ i j i2 j2, i < R → j < C → i2 < R → j2 < C → f i j = f i2 j2 → i = i2 ∧ j = j2)
    (hsurj : ∀ k, k < R * C → ∃ i j, i < R ∧ j < C ∧ f i j = k) :
    WritesEachOnce (rowMajorOffsets d R C) (R * C) := by
  refine ⟨length_rowMajorOffsets d R C, fun k hk => ?_⟩
  apply List.count_eq_one_of_mem
  · apply nodup_rowMajorOffsets
    intro i j i2 j2 hi hj hi2 hj2 e
    rw [hd i j hi hj, hd i2 j2 hi2 hj2] at e
    exact hinj i j i2 j2 hi hj hi2 hj2 e
  · rw [mem_rowMajorOffsets]
    obtain ⟨i, j, hi, hj, e⟩ := hsurj k hk
    exact ⟨i, j, hi, hj, by rw [hd i j hi hj]; exact e⟩

/-- A logged copy loop that returns `out` without the log returns `out` and the
row-major list of its destination offsets with it. -/
theorem logged_of_run {α : Type} (d s : Nat → Nat → Nat) (src dst out : List α) (R C : Nat)
    (hrun : copyLoop d s src dst R C = some out) :
    copyLoopLogged d s src (dst, []) R C = some (out, rowMajorOffsets d R C) := by
  rw [logged_outer, hrun]
  simp

/-- Dropping the log of a logged copy loop gives the copy loop, on every input. -/
theorem logged_erase {α : Type} (d s : Nat → Nat → Nat) (src dst : List α) (R C : Nat) :
    (copyLoopLogged d s src (dst, []) R C).map Prod.fst = copyLoop d s src dst R C := by
  rw [logged_outer, Option.map_map]
  cases copyLoop d s src dst R C <;> rfl

theorem transposeLogged_eq (src dst : List Int) (rows cols : Nat) :
    transposeLogged src dst rows cols
      = copyLoopLogged (transposeDst rows cols) (fun i j => idx i j cols) src (dst, []) rows
          cols := rfl

theorem rotate180Logged_eq {α : Type} (src dst : List α) (rows cols : Nat) :
    rotate180Logged src dst rows cols
      = copyLoopLogged (rotate180Dst rows cols) (fun i j => idx i j cols) src (dst, []) rows
          cols := rfl

theorem reflectLogged_eq {α : Type} (src dst : List α) (rows cols : Nat) :
    reflectLogged src dst rows cols
      = copyLoopLogged (reflectDst rows cols) (fun i j => idx i j cols) src (dst, []) rows
          cols := rfl

theorem rotate90Logged_eq {α : Type} (src dst : List α) (rows cols : Nat) :
    rotate90Logged src dst rows cols
      = copyLoopLogged (rotate90Dst rows cols) (fun i j => idx i j cols) src (dst, []) rows
          cols := rfl

/-- C6. For extents `R > 0`, `C > 0` (with `R * C` a `size_t`) and each of the four
operators: the function sending a source coordinate `(i, j)`, `i < R`, `j < C`, to
the destination offset the loop writes is a bijection onto the offsets below
`R * C`; and the loop itself, run on buffers of `R * C` elements with every store
logged, returns the same destination as the operator and its log is the list of the
offsets of all coordinates in row-major order, in which every offset below `R * C`
occurs exactly once and which has `R * C` entries: every destination offset is
written exactly once, none is left unwritten and none is written twice. On every
input, the logged loop without its log is the operator. -/
theorem dst_offsets_bijective (R C : Nat) (_hR : 0 < R) (_hC : 0 < C) (hRC : R * C < SIZE_MOD) :
    (Set.BijOn (fun p : Nat × Nat => transposeDst R C p.1 p.2)
        {p | p.1 < R ∧ p.2 < C} {k | k < R * C} ∧
      Set.BijOn (fun p : Nat × Nat => rotate180Dst R C p.1 p.2)
        {p | p.1 < R ∧ p.2 < C} {k | k < R * C} ∧
      Set.BijOn (fun p : Nat × Nat => reflectDst R C p.1 p.2)
        {p | p.1 < R ∧ p.2 < C} {k | k < R * C} ∧
      Set.BijOn (fun p : Nat × Nat => rotate90Dst R C p.1 p.2)
        {p | p.1 < R ∧ p.2 < C} {k | k < R * C}) ∧
    (∀ src dst : List Int,
      (transposeLogged src dst R C).map Prod.fst = transpose src dst R C) ∧
    (∀ src dst : List Int, src.length = R * C → dst.length = R * C →
      ∃ out log, transposeLogged src dst R C = some (out, log) ∧
        transpose src dst R C = some out ∧
        log = rowMajorOffsets (transposeDst R C) R C ∧ WritesEachOnce log (R * C)) ∧
    (∀ (α : Type) (src dst : List α),
      (rotate180Logged src dst R C).map Prod.fst = rotate180 src dst R C) ∧
    (∀ (α : Type) (src dst : List α), src.length = R * C → dst.length = R * C →
      ∃ out log, rotate180Logged src dst R C = some (out, log) ∧
        rotate180 src dst R C = some out ∧
        log = rowMajorOffsets (rotate180Dst R C) R C ∧ WritesEachOnce log (R * C)) ∧
    (∀ (α : Type) (src dst : List α),
      (reflectLogged src dst R C).map Prod.fst = reflect_right_left src dst R C) ∧
    (∀ (α : Type) (src dst : List α), src.length = R * C → dst.length = R * C →
      ∃ out log, reflectLogged src dst R C = some (out, log) ∧
        reflect_right_left src dst R C = some out ∧
        log = rowMajorOffsets (reflectDst R C) R C ∧ WritesEachOnce log (R * C)) ∧
    (∀ (α : Type) (src dst : List α),
      (rotate90Logged src dst R C).map Prod.fst = rotate90Clockwise src dst R C) ∧
    (∀ (α : Type) (src dst : List α), src.length = R * C → dst.length = R * C →
      ∃ out log, rotate90Logged src dst R C = some (out, log) ∧
        rotate90Clockwise src dst R C = some out ∧
        log = rowMajorOffsets (rotate90Dst R C) R C ∧ WritesEachOnce log (R * C)) := by
  refine ⟨⟨bijOn_of_closed (transposeDst R C) (fun i j => j * R + i) R C
      (fun i j hi hj => transposeDst_eq R C i j hRC hi hj) (transposeF_lt R C)
      (transposeF_inj R C) (transposeF_surj R C),
    bijOn_of_closed (rotate180Dst R C) (fun i j => (R - 1 - i) * C + (C - 1 - j)) R C
      (fun i j hi hj => rotate180Dst_eq R C i j hRC hi hj) (rotate180F_lt R C)
      (rotate180F_inj R C) (rotate180F_surj R C),
    bijOn_of_closed (reflectDst R C) (fun i j => i * C + (C - 1 - j)) R C
      (fun i j hi hj => reflectDst_eq R C i j hRC hi hj) (reflectF_lt R C)
      (reflectF_inj R C) (reflectF_surj R C),
    bijOn_of_closed (rotate90Dst R C) (fun i j => j * R + (R - 1 - i)) R C
      (fun i j hi hj => rotate90Dst_eq R C i j hRC hi hj) (rotate90F_lt R C)
      (rotate90F_inj R C) (rotate90F_surj R C)⟩,
    fun src dst => logged_erase _ _ src dst R C, ?_,
    fun _ src dst => logged_erase _ _ src dst R C, ?_,
    fun _ src dst => logged_erase _ _ src dst R C, ?_,
    fun _ src dst => logged_erase _ _ src dst R C, ?_⟩
  · intro src dst hsrc hdst
    obtain ⟨out, hrun, -, -⟩ := transpose_spec R C src dst hRC hsrc hdst
    refine ⟨out, _, ?_, hrun, rfl,
      writesEachOnce_of_closed (transposeDst R C) (fun i j => j * R + i) R C
        (fun i j hi hj => transposeDst_eq R C i j hRC hi hj) (transposeF_inj R C)
        (transposeF_surj R C)⟩
    rw [transposeLogged_eq]
    exact logged_of_run _ _ src dst out R C (by rw [← transpose_eq_copyLoop]; exact hrun)
  · intro α src dst hsrc hdst
    obtain ⟨out, hrun, -, -⟩ := rotate180_spec R C src dst hRC hsrc hdst
    refine ⟨out, _, ?_, hrun, rfl,
      writesEachOnce_of_closed (rotate180Dst R C) (fun i j => (R - 1 - i) * C + (C - 1 - j)) R C
        (fun i j hi hj => rotate180Dst_eq R C i j hRC hi hj) (rotate180F_inj R C)
        (rotate180F_surj R C)⟩
    rw [rotate180Logged_eq]
    exact logged_of_run _ _ src dst out R C (by rw [← rotate180_eq_copyLoop]; exact hrun)
  · intro α src dst hsrc hdst
    obtain ⟨out, hrun, -, -⟩ := reflect_spec R C src dst hRC hsrc hdst
    refine ⟨out, _, ?_, hrun, rfl,
      writesEachOnce_of_closed (reflectDst R C) (fun i j => i * C + (C - 1 - j)) R C
        (fun i j hi hj => reflectDst_eq R C i j hRC hi hj) (reflectF_inj R C)
        (reflectF_surj R C)⟩
    rw [reflectLogged_eq]
    exact logged_of_run _ _ src dst out R C (by rw [← reflect_eq_copyLoop]; exact hrun)
  · intro α src dst hsrc hdst
    obtain ⟨out, hrun, -, -⟩ := rotate90_spec R C src dst hRC hsrc hdst
    refine ⟨out, _, ?_, hrun, rfl,
      writesEachOnce_of_closed (rotate90Dst R C) (fun i j => j * R + (R - 1 - i)) R C
        (fun i j hi hj => rotate90Dst_eq R C i j hRC hi hj) (rotate90F_inj R C)
        (rotate90F_surj R C)⟩
    rw [rotate90Logged_eq]
    exact logged_of_run _ _ src dst out R C (by rw [← rotate90_eq_copyLoop]; exact hrun)

/-- Witness of C6 for the 2x3 extents. -/
theorem dst_offsets_bijective_witness :
    (Set.BijOn (fun p : Nat × Nat => transposeDst 2 3 p.1 p.2)
        {p | p.1 < 2 ∧ p.2 < 3} {k | k < 2 * 3} ∧
      Set.BijOn (fun p : Nat × Nat => rotate180Dst 2 3 p.1 p.2)
        {p | p.1 < 2 ∧ p.2 < 3} {k | k < 2 * 3} ∧
      Set.BijOn (fun p : Nat × Nat => reflectDst 2 3 p.1 p.2)
        {p | p.1 < 2 ∧ p.2 < 3} {k | k < 2 * 3} ∧
      Set.BijOn (fun p : Nat × Nat => rotate90Dst 2 3 p.1 p.2)
        {p | p.1 < 2 ∧ p.2 < 3} {k | k < 2 * 3}) ∧
    (∀ src dst : List Int,
      (transposeLogged src dst 2 3).map Prod.fst = transpose src dst 2 3) ∧
    (∀ src dst : List Int, src.length = 2 * 3 → dst.length = 2 * 3 →
      ∃ out log, transposeLogged src dst 2 3 = some (out, log) ∧
        transpose src dst 2 3 = some out ∧
        log = rowMajorOffsets (transposeDst 2 3) 2 3 ∧ WritesEachOnce log (2 * 3)) ∧
    (∀ (α : Type) (src dst : List α),
      (rotate180Logged src dst 2 3).map Prod.fst = rotate180 src dst 2 3) ∧
    (∀ (α : Type) (src dst : List α), src.length = 2 * 3 → dst.length = 2 * 3 →
      ∃ out log, rotate180Logged src dst 2 3 = some (out, log) ∧
        rotate180 src dst 2 3 = some out ∧
        log = rowMajorOffsets (rotate180Dst 2 3) 2 3 ∧ WritesEachOnce log (2 * 3)) ∧
    (∀ (α : Type) (src dst : List α),
      (reflectLogged src dst 2 3).map Prod.fst = reflect_right_left src dst 2 3) ∧
    (∀ (α : Type) (src dst : List α), src.length = 2 * 3 → dst.length = 2 * 3 →
      ∃ out log, reflectLogged src dst 2 3 = some (out, log) ∧
        reflect_right_left src dst 2 3 = some out ∧
        log = rowMajorOffsets (reflectDst 2 3) 2 3 ∧ WritesEachOnce log (2 * 3)) ∧
    (∀ (α : Type) (src dst : List α),
      (rotate90Logged src dst 2 3).map Prod.fst = rotate90Clockwise src dst 2 3) ∧
    (∀ (α : Type) (src dst : List α), src.length = 2 * 3 → dst.length = 2 * 3 →
      ∃ out log, rotate90Logged src dst 2 3 = some (out, log) ∧
        rotate90Clockwise src dst 2 3 = some out ∧
        log = rowMajorOffsets (rotate90Dst 2 3) 2 3 ∧ WritesEachOnce log (2 * 3)) :=
  dst_offsets_bijective 2 3 (by decide) (by decide) (small_lt_SIZE_MOD _ (by decide))

/-- C7. Applying `rotate90Clockwise` four times in a row, with the extents swapped
after each application (`(R, C)`, `(C, R)`, `(R, C)`, `(C, R)`), to a buffer `A` of
`R * C` elements returns a buffer equal to `A`, whatever the four destination
buffers of `R * C` elements hold before. -/
theorem rotate90_four_times {α : Type} (R C : Nat) (A d1 d2 d3 d4 : List α)
    (hRC : R * C < SIZE_MOD) (hA : A.length = R * C) (h1 : d1.length = R * C)
    (h2 : d2.length = R * C) (h3 : d3.length = R * C) (h4 : d4.length = R * C) :
    ((rotate90Clockwise A d1 R C).bind fun B1 =>
      (rotate90Clockwise B1 d2 C R).bind fun B2 =>
        (rotate90Clockwise B2 d3 R C).bind fun B3 =>
          rotate90Clockwise B3 d4 C R) = some A := by
  have hCR : C * R < SIZE_MOD := by rwa [Nat.mul_comm]
  have hsw : R * C = C * R := Nat.mul_comm R C
  obtain ⟨B1, r1, l1, p1⟩ := rotate90_spec_eq R C A d1 hRC hA h1
  obtain ⟨B2, r2, l2, p2⟩ := rotate90_spec_eq C R B1 d2 hCR (by rw [l1, hsw]) (by rw [h2, hsw])
  obtain ⟨B3, r3, l3, p3⟩ := rotate90_spec_eq R C B2 d3 hRC (by rw [l2, hsw]) h3
  obtain ⟨B4, r4, l4, p4⟩ := rotate90_spec_eq C R B3 d4 hCR (by rw [l3, hsw]) (by rw [h4, hsw])
  rw [r1, Option.some_bind, r2, Option.some_bind, r3, Option.some_bind, r4]
  congr 1
  apply buffer_ext R C B4 A (by rw [l4, hsw]) hA
  intro i j hi hj
  have q1 := p1 i j hi hj
  have q2 := p2 j (R - 1 - i) hj (by omega)
  have q3 := p3 (R - 1 - i) (C - 1 - j) (by omega) (by omega)
  have q4 := p4 (C - 1 - j) i (by omega) hi
  have e1 : R - 1 - (R - 1 - i) = i := by omega
  have e2 : C - 1 - (C - 1 - j) = j := by omega
  rw [e1] at q3
  rw [e2] at q4
  rw [q4, q3, q2, q1]

/-- Witness of C7 on a 2x3 matrix. -/
theorem rotate90_four_times_witness :
    ((rotate90Clockwise [(1 : Int), 2, 3, 4, 5, 6] (List.replicate 6 0) 2 3).bind fun B1 =>
      (rotate90Clockwise B1 (List.replicate 6 0) 3 2).bind fun B2 =>
        (rotate90Clockwise B2 (List.replicate 6 0) 2 3).bind fun B3 =>
          rotate90Clockwise B3 (List.replicate 6 0) 3 2) = some [1, 2, 3, 4, 5, 6] :=
  rotate90_four_times 2 3 [1, 2, 3, 4, 5, 6] (List.replicate 6 0) (List.replicate 6 0)
    (List.replicate 6 0) (List.replicate 6 0) (small_lt_SIZE_MOD _ (by decide)) rfl rfl rfl rfl rfl

/-- C9. `reflect_right_left` applied to the result of `reflect_right_left` on a
buffer `A` of `R * C` elements (same extents both times) returns a buffer equal to
`A`, whatever the two destination buffers of `R * C` elements hold before. -/
theorem reflect_involution {α : Type} (R C : Nat) (A d1 d2 : List α)
    (hRC : R * C < SIZE_MOD) (hA : A.length = R * C) (h1 : d1.length = R * C)
    (h2 : d2.length = R * C) :
    ((reflect_right_left A d1 R C).bind fun B1 => reflect_right_left B1 d2 R C) = some A := by
  obtain ⟨B1, r1, l1, p1⟩ := reflect_spec_eq R C A d1 hRC hA h1
  obtain ⟨B2, r2, l2, p2⟩ := reflect_spec_eq R C B1 d2 hRC l1 h2
  rw [r1, Option.some_bind, r2]
  congr 1
  apply buffer_ext R C B2 A l2 hA
  intro i j hi hj
  have q1 := p1 i j hi hj
  have q2 := p2 i (C - 1 - j) hi (by omega)
  have e2 : C - 1 - (C - 1 - j) = j := by omega
  rw [e2] at q2
  rw [q2, q1]

/-- Witness of C9 on a 2x3 matrix. -/
theorem reflect_involution_witness :
    ((reflect_right_left [(1 : Int), 2, 3, 4, 5, 6] (List.replicate 6 0) 2 3).bind fun B1 =>
      reflect_right_left B1 (List.replicate 6 0) 2 3) = some [1, 2, 3, 4, 5, 6] :=
  reflect_involution 2 3 [1, 2, 3, 4, 5, 6] (List.replicate 6 0) (List.replicate 6 0)
    (small_lt_SIZE_MOD _ (by decide)) rfl rfl rfl

/-! ## The exact comparator of compare.cpp -/

/-- The fragment loop prints the first `min 10 total` elements. -/
theorem printLoop_eq (buf : List Int) (m : Nat) (hm : m ≤ buf.length) :
    forLoop m (fun i out => (load buf i).map (fun v => out ++ [v])) [] = some (buf.take m) := by
  induction m with
  | zero => rfl
  | succ m ih =>
    have hlt : m < buf.length := hm
    rw [forLoop_succ, ih (Nat.le_of_lt hlt)]
    simp only [Option.some_bind, load]
    rw [List.getElem?_eq_getElem hlt, List.take_succ, List.getElem?_eq_getElem hlt]
    rfl

theorem printFirst_eq (buf : List Int) (total : Nat) (h : total ≤ buf.length) :
    printFirst buf total = some (buf.take (min 10 total)) :=
  printLoop_eq buf (min 10 total) (le_trans (Nat.min_le_right 10 total) h)

/-- The scan started at `i` with `r` iterations left either finds every pair equal
or stops at the smallest differing index. -/
theorem scanLoop_spec (cpu gpu : List Int) (r : Nat) :
    ∀ i, i + r ≤ cpu.length → i + r ≤ gpu.length →
      (scanLoop cpu gpu r i = some (true, 0) ∧
        ∀ k, i ≤ k → k < i + r → cpu[k]? = gpu[k]?) ∨
      (∃ m x y, i ≤ m ∧ m < i + r ∧ scanLoop cpu gpu r i = some (false, m) ∧
        cpu[m]? = some x ∧ gpu[m]? = some y ∧ x ≠ y ∧
        ∀ k, i ≤ k → k < m → cpu[k]? = gpu[k]?) := by
  induction r with
  | zero =>
    intro i _ _
    exact Or.inl ⟨rfl, fun k h1 h2 => by omega⟩
  | succ r ih =>
    intro i hc hg
    have hci : i < cpu.length := by omega
    have hgi : i < gpu.length := by omega
    have ec : cpu[i]? = some cpu[i] := List.getElem?_eq_getElem hci
    have eg : gpu[i]? = some gpu[i] := List.getElem?_eq_getElem hgi
    by_cases hne : cpu[i] = gpu[i]
    · have hstep : scanLoop cpu gpu (r + 1) i = scanLoop cpu gpu r (i + 1) := by
        simp only [scanLoop, load, ec, eg]
        simp [hne]
      rcases ih (i + 1) (by omega) (by omega) with ⟨hrun, hall⟩ | ⟨m, x, y, h1, h2, hrun, hx, hy, hxy, hall⟩
      · refine Or.inl ⟨by rw [hstep, hrun], fun k hk1 hk2 => ?_⟩
        rcases Nat.eq_or_lt_of_le hk1 with e | hlt
        · subst e; rw [ec, eg, hne]
        · exact hall k hlt (by omega)
      · refine Or.inr ⟨m, x, y, by omega, by omega, by rw [hstep, hrun], hx, hy, hxy,
          fun k hk1 hk2 => ?_⟩
        rcases Nat.eq_or_lt_of_le hk1 with e | hlt
        · subst e; rw [ec, eg, hne]
        · exact hall k hlt hk2
    · refine Or.inr ⟨i, cpu[i], gpu[i], le_refl i, by omega, ?_, ec, eg, hne,
        fun k hk1 hk2 => by omega⟩
      simp only [scanLoop, load, ec, eg]
      simp [hne]

/-- The comparator on two buffers holding at least `n` elements: the output and the
exit status in the two cases of the scan. -/
theorem compareBuffers_spec (cpu gpu : List Int) (n : Nat) (hc : n ≤ cpu.length)
    (hg : n ≤ gpu.length) :
    ∃ out, compareBuffers cpu gpu n = some out ∧
      (out = (0, CompareOutput.reportMatch n (cpu.take (min 10 n)) (gpu.take (min 10 n)))
        ↔ ∀ i, i < n → cpu[i]? = gpu[i]?) ∧
      (out.1 = 0 ↔ ∀ i, i < n → cpu[i]? = gpu[i]?) ∧
      (¬ (∀ i, i < n → cpu[i]? = gpu[i]?) →
        ∃ k x y, k < n ∧ cpu[k]? = some x ∧ gpu[k]? = some y ∧ x ≠ y ∧
          (∀ i, i < k → cpu[i]? = gpu[i]?) ∧
          out = (1, CompareOutput.reportMismatch n (cpu.take (min 10 n)) (gpu.take (min 10 n))
            k x y)) := by
  have hpc := printFirst_eq cpu n hc
  have hpg := printFirst_eq gpu n hg
  rcases scanLoop_spec cpu gpu n 0 (by omega) (by omega) with
    ⟨hrun, hall⟩ | ⟨m, x, y, _, h2, hrun, hx, hy, hxy, hall⟩
  · have hall2 : ∀ i, i < n → cpu[i]? = gpu[i]? := fun i hi => hall i (Nat.zero_le i) (by omega)
    refine ⟨(0, CompareOutput.reportMatch n (cpu.take (min 10 n)) (gpu.take (min 10 n))), ?_,
      ?_, ?_, ?_⟩
    · simp [compareBuffers, hrun, hpc, hpg]
    · exact ⟨fun _ => hall2, fun _ => rfl⟩
    · exact ⟨fun _ => hall2, fun _ => rfl⟩
    · intro h; exact absurd hall2 h
  · have hnot : ¬ (∀ i, i < n → cpu[i]? = gpu[i]?) := by
      intro h
      have := h m (by omega)
      rw [hx, hy] at this
      exact hxy (Option.some.inj this)
    refine ⟨(1, CompareOutput.reportMismatch n (cpu.take (min 10 n)) (gpu.take (min 10 n))
      m x y), ?_, ?_, ?_, ?_⟩
    · simp [compareBuffers, hrun, hpc, hpg, load, hx, hy]
    · constructor
      · intro h; simp at h
      · intro h; exact absurd h hnot
    · constructor
      · intro h; simp at h
      · intro h; exact absurd h hnot
    · intro _
      exact ⟨m, x, y, by omega, hx, hy, hxy, fun i hi => hall i (Nat.zero_le i) hi, rfl⟩

/-- C2. The exact comparator of compare.cpp, run on two buffers read with the
declared count `n`: it returns; it reports a match and exits 0 if and only if
`cpu_result[i] = gpu_result[i]` for every `i < n`; otherwise it exits 1 and the
reported position is the smallest index with different values, printed with the two
values at that index. Comparing `[1,2,3]` with `[1,5,3]` reports a mismatch at index
1 with values 2 and 5 and exit code 1. -/
theorem exact_compare_correct (cpu gpu : List Int) (n : Nat) (hc : cpu.length = n)
    (hg : gpu.length = n) :
    (∃ out, compareBuffers cpu gpu n = some out ∧
      (out = (0, CompareOutput.reportMatch n (cpu.take (min 10 n)) (gpu.take (min 10 n)))
        ↔ ∀ i, i < n → cpu[i]? = gpu[i]?) ∧
      (out.1 = 0 ↔ ∀ i, i < n → cpu[i]? = gpu[i]?) ∧
      (¬ (∀ i, i < n → cpu[i]? = gpu[i]?) →
        ∃ k x y, k < n ∧ cpu[k]? = some x ∧ gpu[k]? = some y ∧ x ≠ y ∧
          (∀ i, i < k → cpu[i]? = gpu[i]?) ∧
          out = (1, CompareOutput.reportMismatch n (cpu.take (min 10 n)) (gpu.take (min 10 n))
            k x y))) ∧
    compareBuffers [1, 2, 3] [1, 5, 3] 3
      = some (1, CompareOutput.reportMismatch 3 [1, 2, 3] [1, 5, 3] 1 2 5) :=
  ⟨compareBuffers_spec cpu gpu n (le_of_eq hc.symm) (le_of_eq hg.symm), by decide⟩

/-- Witness of C2 on two equal buffers of two elements. -/
theorem exact_compare_correct_witness :
    (∃ out, compareBuffers [4, 8] [4, 8] 2 = some out ∧
      (out = (0, CompareOutput.reportMatch 2 (([4, 8] : List Int).take (min 10 2))
          (([4, 8] : List Int).take (min 10 2)))
        ↔ ∀ i, i < 2 → ([4, 8] : List Int)[i]? = ([4, 8] : List Int)[i]?) ∧
      (out.1 = 0 ↔ ∀ i, i < 2 → ([4, 8] : List Int)[i]? = ([4, 8] : List Int)[i]?) ∧
      (¬ (∀ i, i < 2 → ([4, 8] : List Int)[i]? = ([4, 8] : List Int)[i]?) →
        ∃ k x y, k < 2 ∧ ([4, 8] : List Int)[k]? = some x ∧ ([4, 8] : List Int)[k]? = some y ∧
          x ≠ y ∧ (∀ i, i < k → ([4, 8] : List Int)[i]? = ([4, 8] : List Int)[i]?) ∧
          out = (1, CompareOutput.reportMismatch 2 (([4, 8] : List Int).take (min 10 2))
            (([4, 8] : List Int).take (min 10 2)) k x y))) ∧
    compareBuffers [1, 2, 3] [1, 5, 3] 3
      = some (1, CompareOutput.reportMismatch 3 [1, 2, 3] [1, 5, 3] 1 2 5) :=
  exact_compare_correct [4, 8] [4, 8] 2 rfl rfl

/-! ## The tolerance comparator of verify.cpp -/

theorem getElem?_eq_some_getD (a : List ℚ) (k : Nat) (h : k < a.length) :
    a[k]? = some (a.getD k 0) := by
  rw [List.getD_eq_getElem?_getD, List.getElem?_eq_getElem h]
  rfl

theorem getElem?_eq_some_getD_gen {F : Type} (a : List F) (k : Nat) (z : F)
    (h : k < a.length) : a[k]? = some (a.getD k z) := by
  rw [List.getD_eq_getElem?_getD, List.getElem?_eq_getElem h]
  rfl

theorem DEFAULT_EPS_nonneg : (0 : ℚ) ≤ DEFAULT_EPS := by
  unfold DEFAULT_EPS
  positivity

theorem compareLoop_self (B : List ℚ) (eps : ℚ) (heps : 0 ≤ eps) (k : Nat)
    (hk : k ≤ B.length) :
    forLoop k (compareStep B B eps) { errors := 0, max_diff := 0, printed := [] }
      = some { errors := 0, max_diff := 0, printed := [] } := by
  induction k with
  | zero => rfl
  | succ k ih =>
    have e := getElem?_eq_some_getD B k (by omega)
    have h2 : ¬ |B.getD k 0 - B.getD k 0| > eps := by
      rw [sub_self, abs_zero]; exact not_lt.mpr heps
    rw [forLoop_succ, ih (by omega), Option.some_bind]
    simp only [compareStep, load, e, Option.some_bind, if_neg h2]

theorem compare_arrays_self (B : List ℚ) (m : Nat) (eps : ℚ) (hm : m ≤ B.length)
    (heps : 0 ≤ eps) :
    compare_arrays B B m eps = some { ok := true, printed := [], summary := none } := by
  simp [compare_arrays, compareLoop_self B eps heps m hm]

theorem round32_zero : round32 0 = F32.fin 0 := by
  simp [round32]

theorem F32.lt_nan (e : F32) : F32.lt e F32.nan = false := by
  cases e <;> rfl

/-- In binary32, the computed difference of a value with itself is not greater than a
tolerance that is not below zero. -/
theorem f32_self_diff (e x : F32) (he : F32.lt e (F32.fin 0) = false) :
    f32.lt e (f32.abs (f32.sub x x)) = false := by
  cases x with
  | fin q =>
    show F32.lt e (F32.abs (round32 (q - q))) = false
    rw [sub_self, round32_zero]
    show F32.lt e (F32.fin |0|) = false
    rw [abs_zero]
    exact he
  | inf s =>
    show F32.lt e (F32.abs (if s = s then F32.nan else F32.inf s)) = false
    rw [if_pos rfl]
    exact F32.lt_nan e
  | nan => exact F32.lt_nan e

theorem f32_lt_irrefl (x : F32) : f32.lt x x = false := by
  cases x with
  | fin q => show decide (q < q) = false; simp
  | inf s => show (s && !s) = false; cases s <;> rfl
  | nan => rfl

theorem f32_default_eps_nonneg : F32.lt (F32.fin DEFAULT_EPS) (F32.fin 0) = false := by
  show decide (DEFAULT_EPS < 0) = false
  rw [decide_eq_false_iff_not]
  exact not_lt.mpr DEFAULT_EPS_nonneg

theorem compareLoopF_self (X : List F32) (e : F32) (he : F32.lt e (F32.fin 0) = false)
    (k : Nat) (hk : k ≤ X.length) :
    forLoop k (compareStepF f32 X X e) { errors := 0, max_diff := f32.zero, printed := [] }
      = some { errors := 0, max_diff := f32.zero, printed := [] } := by
  induction k with
  | zero => rfl
  | succ k ih =>
    have ex := getElem?_eq_some_getD_gen X k f32.zero (by omega)
    have h2 : ¬ f32.lt e (f32.abs (f32.sub (X.getD k f32.zero) (X.getD k f32.zero))) = true := by
      rw [f32_self_diff e _ he]
      simp
    rw [forLoop_succ, ih (by omega), Option.some_bind]
    simp only [compareStepF, load, ex, Option.some_bind, if_neg h2]

theorem compare_arraysF_self (X : List F32) (k : Nat) (e : F32) (hk : k ≤ X.length)
    (he : F32.lt e (F32.fin 0) = false) :
    compare_arraysF f32 X X k e = some { ok := true, printed := [], summary := none } := by
  simp [compare_arraysF, compareLoopF_self X e he k hk]

theorem scanLoop_self (A : List Int) (n : Nat) (hn : n ≤ A.length) :
    scanLoop A A n 0 = some (true, 0) := by
  rcases scanLoop_spec A A n 0 (by omega) (by omega) with
    ⟨hrun, _⟩ | ⟨m, x, y, _, _, _, hx, hy, hxy, _⟩
  · exact hrun
  · rw [hx] at hy
    exact absurd (Option.some.inj hy) hxy

/-- C10. Comparing a buffer with itself always passes: for every buffer and every
count not exceeding its length, the exact scan of compare.cpp finds no difference
and the comparator reports a match with exit status 0; `compare_arrays` returns true
for every tolerance `eps >= 0` and for the default tolerance, prints no mismatch line
and prints no summary (so it never divides by `n`), also when the count is 0. The
same holds in binary32 arithmetic, for every buffer of `float` values (infinities and
NaN included) and every tolerance that is not below zero. -/
theorem compare_self (A : List Int) (B : List ℚ) (n m : Nat) (eps : ℚ) (hn : n ≤ A.length)
    (hm : m ≤ B.length) (heps : 0 ≤ eps) :
    scanLoop A A n 0 = some (true, 0) ∧
    compareBuffers A A n
      = some (0, CompareOutput.reportMatch n (A.take (min 10 n)) (A.take (min 10 n))) ∧
    compare_arrays B B m eps = some { ok := true, printed := [], summary := none } ∧
    compare_arrays B B m DEFAULT_EPS = some { ok := true, printed := [], summary := none } ∧
    compare_arrays B B 0 eps = some { ok := true, printed := [], summary := none } ∧
    (∀ (X : List F32) (k : Nat) (e : F32), k ≤ X.length → F32.lt e (F32.fin 0) = false →
      compare_arraysF f32 X X k e = some { ok := true, printed := [], summary := none }) ∧
    (∀ (X : List F32) (k : Nat), k ≤ X.length →
      compare_arraysF f32 X X k (F32.fin DEFAULT_EPS)
        = some { ok := true, printed := [], summary := none }) := by
  refine ⟨scanLoop_self A n hn, ?_, compare_arrays_self B m eps hm heps,
    compare_arrays_self B m DEFAULT_EPS hm DEFAULT_EPS_nonneg,
    compare_arrays_self B 0 eps (Nat.zero_le _) heps,
    fun X k e hk he => compare_arraysF_self X k e hk he,
    fun X k hk => compare_arraysF_self X k (F32.fin DEFAULT_EPS) hk f32_default_eps_nonneg⟩
  simp [compareBuffers, scanLoop_self A n hn, printFirst_eq A n hn]

/-- Witness of C10 on buffers of two elements. -/
theorem compare_self_witness :
    scanLoop [3, -4] [3, -4] 2 0 = some (true, 0) ∧
    compareBuffers [3, -4] [3, -4] 2
      = some (0, CompareOutput.reportMatch 2 (([3, -4] : List Int).take (min 10 2))
          (([3, -4] : List Int).take (min 10 2))) ∧
    compare_arrays [1 / 2, 7] [1 / 2, 7] 2 0
      = some { ok := true, printed := [], summary := none } ∧
    compare_arrays [1 / 2, 7] [1 / 2, 7] 2 DEFAULT_EPS
      = some { ok := true, printed := [], summary := none } ∧
    compare_arrays [1 / 2, 7] [1 / 2, 7] 0 0
      = some { ok := true, printed := [], summary := none } ∧
    (∀ (X : List F32) (k : Nat) (e : F32), k ≤ X.length → F32.lt e (F32.fin 0) = false →
      compare_arraysF f32 X X k e = some { ok := true, printed := [], summary := none }) ∧
    (∀ (X : List F32) (k : Nat), k ≤ X.length →
      compare_arraysF f32 X X k (F32.fin DEFAULT_EPS)
        = some { ok := true, printed := [], summary := none }) :=
  compare_self [3, -4] [1 / 2, 7] 2 2 0 (by decide) (by decide) (le_refl 0)

/-! ## The three programs: size check and exit status -/

end CpuGpuMatrix
